import Mathlib

/-!
Verification of the Freeland command-center process-orchestration server.

A shallow embedding of `src/server.js`: the WebSocket command handler
(`handleCommand`), the process supervisor (`runProject`, `stopProject`,
`cleanProject`, `openFolder`) and the status broadcast (`broadcastStatus`).

Modelling decisions, each tied to the source:

* The live-process registry `runningProcesses` (a JS `Map` keyed by
  `projectPath`) is embedded as an association list `List (String × ProcEntry)`
  together with `mapHas`, `mapSet`, `mapDelete` mirroring `Map.has`,
  `Map.set` and `Map.delete` (JS `Map.set` updates in place when the key
  exists and appends otherwise; `Map.delete` removes the key).
* The server is event-driven on a single control thread.  We model it as a
  deterministic step function `step : World → Ev → World × List Out` over an
  external event stream: inbound WebSocket frames (already parsed, or a parse
  failure carrying the exception message, matching the `try/catch` around
  `JSON.parse`), and the asynchronous child-process callbacks `data`,
  `error` and `close` that the source attaches at spawn time.
* `spawn` returns a process handle synchronously in Node; any spawn-level
  failure is delivered later through the `error` callback.  Accordingly the
  model records a spawned child in `World.children` at spawn time and a
  spawn failure is the external event `Ev.procError` on that child.  Pids are
  modelled by the counter `World.nextPid` (the OS choice of pid is opaque;
  no claim depends on its value).
* `fs.existsSync(path.join(projectPath, 'node_modules'))` is the oracle
  `fsHasNodeModules : String → Bool`, a parameter of `step`.
* Outbound traffic is the list `List Out`: `Out.send c m` is `ws.send` on the
  connection `c` that issued the command (the callbacks close over that
  `ws`), and `Out.broadcastOut m` is the send-to-every-open-client loop of
  `broadcastStatus`.
* `runProject` calls itself recursively when `node_modules` is missing and
  the command does not contain `"install"`.  Lean cannot see the structural
  termination of that self-call, so `runProjectFuel` takes a fuel argument
  and `runProject` fixes it at 2; the theorem for C10 proves any fuel ≥ 2
  gives the same result, i.e. the recursion depth is at most one.
* Platform branching (`cmd.exe` vs `/bin/sh`, `taskkill` vs `SIGTERM`,
  `rmdir` vs `rm -rf`) only changes which OS binary is signalled or spawned,
  never the registry or the emitted frames, so it is not reflected in the
  observable model; the detached `openFolder` spawn and the `taskkill`
  spawn have no attached callbacks and are likewise not tracked.
-/

/-- One value of the `runningProcesses` map:
`{ name: projectName, path: projectPath, pid: child.pid, process: child }`.
The raw process handle is represented by the child's pid, which is also how
`stopProject` reaches it. -/
structure ProcEntry where
  name : String
  path : String
  pid : Nat
deriving Repr, DecidableEq

/-- Embeds `Map.has` on the association-list view of a JS `Map`. -/
def mapHas (m : List (String × ProcEntry)) (k : String) : Bool :=
  m.any (fun p => p.1 == k)

/-- Embeds `Map.set`: update in place when the key is present, append
otherwise. -/
def mapSet (m : List (String × ProcEntry)) (k : String) (v : ProcEntry) :
    List (String × ProcEntry) :=
  if m.any (fun p => p.1 == k) then
    m.map (fun p => if p.1 == k then (k, v) else p)
  else
    m ++ [(k, v)]

/-- Embeds `Map.delete`: remove the key when present. -/
def mapDelete (m : List (String × ProcEntry)) (k : String) :
    List (String × ProcEntry) :=
  m.filter (fun p => ¬ p.1 == k)

/-- The entries `{id, name, path, pid}` that both `/api/running` and
`broadcastStatus` build from `runningProcesses` (`id` is the map key). -/
structure RunningInfo where
  id : String
  name : String
  path : String
  pid : Nat
deriving Repr, DecidableEq

/-- The `running` array assembled by `broadcastStatus` (and `/api/running`). -/
def statusList (m : List (String × ProcEntry)) : List RunningInfo :=
  m.map (fun p => { id := p.1, name := p.2.name, path := p.2.path, pid := p.2.pid })

/-- An outbound JSON frame.  Every `ws.send(JSON.stringify({...}))` in the
source builds one of these.  The `projectPath` field of `error` is an
`Option` because the two malformed-command error frames
(`{type:'error', message: e.message}` and
`{type:'error', message: 'Unknown action: ...'}`) are built without a
`projectPath` key, while every other `error` frame includes one. -/
inductive Msg where
  | errorMsg (projectPath : Option String) (message : String)
  | warning (projectPath : String) (message : String)
  | startMsg (projectPath : String) (projectName : String) (command : String)
      (message : String)
  | stdoutMsg (projectPath : String) (data : String)
  | stderrMsg (projectPath : String) (data : String)
  | exitMsg (projectPath : String) (code : Int) (message : String)
  | info (projectPath : String) (message : String)
  | stopped (projectPath : String) (message : String)
  | success (projectPath : String) (message : String)
  | status (running : List RunningInfo)
deriving Repr, DecidableEq

/-- The `type` tag of an outbound frame. -/
def msgType : Msg → String
  | .errorMsg _ _ => "error"
  | .warning _ _ => "warning"
  | .startMsg _ _ _ _ => "start"
  | .stdoutMsg _ _ => "stdout"
  | .stderrMsg _ _ => "stderr"
  | .exitMsg _ _ _ => "exit"
  | .info _ _ => "info"
  | .stopped _ _ => "stopped"
  | .success _ _ => "success"
  | .status _ => "status"

/-- The `projectPath` field of an outbound frame, `none` when the frame is
built without one. -/
def msgProjectPath : Msg → Option String
  | .errorMsg p _ => p
  | .warning p _ => some p
  | .startMsg p _ _ _ => some p
  | .stdoutMsg p _ => some p
  | .stderrMsg p _ => some p
  | .exitMsg p _ _ => some p
  | .info p _ => some p
  | .stopped p _ => some p
  | .success p _ => some p
  | .status _ => none

/-- Destination of one outbound frame: the connection that issued the
command (`ws.send`), or every open client (`broadcastStatus`). -/
inductive Out where
  | send (caller : Nat) (m : Msg)
  | broadcastOut (m : Msg)
deriving Repr, DecidableEq

/-- What a tracked child's `close` callback does: a `runProject` child
removes its registry entry, emits `exit` and broadcasts; a `cleanProject`
child emits `success`/`error`. -/
inductive ChildKind where
  | runChild
  | cleanChild
deriving Repr, DecidableEq

/-- A spawned child process whose callbacks the server attached, together
with the values those callbacks close over. -/
structure Child where
  pid : Nat
  kind : ChildKind
  projectPath : String
  projectName : String
  command : String
  caller : Nat
deriving Repr, DecidableEq

/-- The mutable state of the server: the `runningProcesses` map, the live
child handles and the pid counter standing in for OS pid assignment. -/
structure World where
  registry : List (String × ProcEntry)
  children : List Child
  nextPid : Nat
deriving Repr, DecidableEq

/-- The state at server start: no running processes, no children. -/
def initialWorld : World := { registry := [], children := [], nextPid := 1 }

/-- An inbound command frame after `JSON.parse`:
`{ action, projectPath, projectName, command }` (the last optional). -/
structure Command where
  action : String
  projectPath : String
  projectName : String
  command : Option String
deriving Repr, DecidableEq

/-- One event delivered to the single control thread: a frame that parsed,
a frame whose `JSON.parse` threw (carrying `e.message`), or one of the
child-process callbacks `data` (with `onStderr` selecting the stream),
`error`, `close`. -/
inductive Ev where
  | goodFrame (caller : Nat) (c : Command)
  | badFrame (caller : Nat) (parseErr : String)
  | procData (pid : Nat) (onStderr : Bool) (data : String)
  | procError (pid : Nat) (errMsg : String)
  | procClose (pid : Nat) (code : Int)
deriving Repr, DecidableEq

/-- Does `needle` occur at the head of `haystack`? -/
def charsStartWith : List Char → List Char → Bool
  | [], _ => true
  | _ :: _, [] => false
  | c :: cs, d :: ds => c == d && charsStartWith cs ds

/-- Does `needle` occur contiguously anywhere in `haystack`? -/
def charsContain (needle : List Char) : List Char → Bool
  | [] => charsStartWith needle []
  | d :: ds => charsStartWith needle (d :: ds) || charsContain needle ds

/-- JS `command.includes('install')`: substring containment. -/
def includesInstall (cmd : String) : Bool :=
  charsContain "install".toList cmd.toList

/-- JS `command || defaultCmd`: the default is taken when the field is
absent or the empty string (falsy). -/
def jsOrDefault (c : Option String) (dflt : String) : String :=
  match c with
  | none => dflt
  | some s => if s = "" then dflt else s

/-- Embeds `runProject(ws, projectPath, projectName, command)` with explicit fuel
bounding the missing-`node_modules` self-recursion (`runProject` below fixes
the fuel; C10 shows any fuel ≥ 2 agrees). -/
def runProjectFuel (fuel : Nat) (fsHasNodeModules : String → Bool) (w : World)
    (caller : Nat) (projectPath projectName command : String) :
    World × List Out :=
  match fuel with
  | 0 => (w, [])
  | fuel + 1 =>
    if mapHas w.registry projectPath then
      (w, [Out.send caller (Msg.errorMsg (some projectPath)
        (projectName ++ " is already running! Stop it first."))])
    else if ¬ fsHasNodeModules projectPath ∧ ¬ includesInstall command then
      let (w', outs) :=
        runProjectFuel fuel fsHasNodeModules w caller projectPath projectName
          "npm install"
      (w', Out.send caller (Msg.warning projectPath
        "node_modules not found. Installing dependencies first...") :: outs)
    else
      let pid := w.nextPid
      let child : Child :=
        { pid := pid, kind := .runChild, projectPath := projectPath,
          projectName := projectName, command := command, caller := caller }
      let registry' := mapSet w.registry projectPath
        { name := projectName, path := projectPath, pid := pid }
      let w' : World :=
        { registry := registry', children := w.children ++ [child],
          nextPid := w.nextPid + 1 }
      (w',
        [Out.send caller (Msg.startMsg projectPath projectName command
          ("Starting " ++ projectName ++ "...")),
         Out.broadcastOut (Msg.status (statusList registry'))])

/-- The function `runProject` as called by the dispatcher: the self-recursion fires at
most once, so fuel 2 is the source's behaviour. -/
def runProject (fsHasNodeModules : String → Bool) (w : World) (caller : Nat)
    (projectPath projectName command : String) : World × List Out :=
  runProjectFuel 2 fsHasNodeModules w caller projectPath projectName command

/-- Embeds `stopProject(ws, projectPath)`.  The kill itself (`taskkill` or
`SIGTERM`) has no observable effect on the model state; the child stays in
`children` until its own `close` event arrives. -/
def stopProject (w : World) (caller : Nat) (projectPath : String) :
    World × List Out :=
  match w.registry.find? (fun p => p.1 == projectPath) with
  | none =>
    (w, [Out.send caller (Msg.errorMsg (some projectPath)
      "Process not found or already stopped")])
  | some entry =>
    let registry' := mapDelete w.registry projectPath
    ({ w with registry := registry' },
      [Out.send caller (Msg.info projectPath
        ("Stopping " ++ entry.2.name ++ "...")),
       Out.broadcastOut (Msg.status (statusList registry')),
       Out.send caller (Msg.stopped projectPath (entry.2.name ++ " stopped"))])

/-- Embeds `openFolder(ws, projectPath)`: detached fire-and-forget spawn with no
callbacks, then one `info` frame. -/
def openFolder (w : World) (caller : Nat) (projectPath : String) :
    World × List Out :=
  (w, [Out.send caller (Msg.info projectPath
    ("Opened folder: " ++ projectPath))])

/-- Embeds `cleanProject(ws, projectPath, projectName)`.  The removal child has
only a `close` callback attached. -/
def cleanProject (fsHasNodeModules : String → Bool) (w : World) (caller : Nat)
    (projectPath projectName : String) : World × List Out :=
  if ¬ fsHasNodeModules projectPath then
    (w, [Out.send caller (Msg.info projectPath
      (projectName ++ " has no node_modules to clean"))])
  else
    let child : Child :=
      { pid := w.nextPid, kind := .cleanChild, projectPath := projectPath,
        projectName := projectName, command := "rm -rf node_modules",
        caller := caller }
    ({ w with children := w.children ++ [child], nextPid := w.nextPid + 1 },
      [Out.send caller (Msg.info projectPath
        ("Cleaning node_modules from " ++ projectName ++ "..."))])

/-- The actions the `switch` in `handleCommand` recognizes. -/
def recognizedAction (a : String) : Bool :=
  a == "run" || a == "deploy" || a == "install" || a == "stop" ||
  a == "open" || a == "clean"

/-- Embeds `handleCommand(ws, data)`: dispatch on `data.action`. -/
def handleCommand (fsHasNodeModules : String → Bool) (w : World)
    (caller : Nat) (c : Command) : World × List Out :=
  if c.action == "run" then
    runProject fsHasNodeModules w caller c.projectPath c.projectName
      (jsOrDefault c.command "npm run dev")
  else if c.action == "deploy" then
    runProject fsHasNodeModules w caller c.projectPath c.projectName
      (jsOrDefault c.command "npm run deploy")
  else if c.action == "install" then
    runProject fsHasNodeModules w caller c.projectPath c.projectName
      "npm install"
  else if c.action == "stop" then
    stopProject w caller c.projectPath
  else if c.action == "open" then
    openFolder w caller c.projectPath
  else if c.action == "clean" then
    cleanProject fsHasNodeModules w caller c.projectPath c.projectName
  else
    (w, [Out.send caller (Msg.errorMsg none ("Unknown action: " ++ c.action))])

/-- Look up the tracked child a process event belongs to. -/
def findChild (w : World) (pid : Nat) : Option Child :=
  w.children.find? (fun c => c.pid == pid)

/-- Drop a child whose `close` event has fired. -/
def removeChild (w : World) (pid : Nat) : World :=
  { w with children := w.children.filter (fun c => ¬ c.pid == pid) }

/-- The `close` callback message: `code === 0 ? 'Process completed
successfully' : 'Process exited with code ' + code`. -/
def exitMessage (code : Int) : String :=
  if code = 0 then "Process completed successfully"
  else "Process exited with code " ++ toString code

/-- One control-thread step: the `ws.on('message')` handler for frames and
the callbacks attached at spawn time for process events.  A process event
whose pid matches no tracked child has no attached callback and is a no-op;
a `cleanProject` child has no `data` or `error` callback. -/
def step (fsHasNodeModules : String → Bool) (w : World) (e : Ev) :
    World × List Out :=
  match e with
  | .goodFrame caller c => handleCommand fsHasNodeModules w caller c
  | .badFrame caller parseErr =>
    (w, [Out.send caller (Msg.errorMsg none parseErr)])
  | .procData pid onStderr data =>
    match findChild w pid with
    | some child =>
      if child.kind = .runChild then
        (w, [Out.send child.caller
          (if onStderr then Msg.stderrMsg child.projectPath data
           else Msg.stdoutMsg child.projectPath data)])
      else (w, [])
    | none => (w, [])
  | .procError pid errMsg =>
    match findChild w pid with
    | some child =>
      if child.kind = .runChild then
        let registry' := mapDelete w.registry child.projectPath
        ({ w with registry := registry' },
          [Out.send child.caller (Msg.errorMsg (some child.projectPath) errMsg),
           Out.broadcastOut (Msg.status (statusList registry'))])
      else (w, [])
    | none => (w, [])
  | .procClose pid code =>
    match findChild w pid with
    | some child =>
      match child.kind with
      | .runChild =>
        let registry' := mapDelete w.registry child.projectPath
        (removeChild { w with registry := registry' } pid,
          [Out.send child.caller (Msg.exitMsg child.projectPath code
            (exitMessage code)),
           Out.broadcastOut (Msg.status (statusList registry'))])
      | .cleanChild =>
        (removeChild w pid,
          [Out.send child.caller
            (if code = 0 then
              Msg.success child.projectPath
                ("Cleaned node_modules from " ++ child.projectName)
             else
              Msg.errorMsg (some child.projectPath)
                ("Failed to clean " ++ child.projectName))])
    | none => (w, [])

/-- Run the server on a whole event sequence, returning the final state. -/
def runEvents (fsHasNodeModules : String → Bool) (w : World) :
    List Ev → World
  | [] => w
  | e :: rest =>
    runEvents fsHasNodeModules (step fsHasNodeModules w e).1 rest

/-- All frames emitted over a whole event sequence, in order. -/
def runOutputs (fsHasNodeModules : String → Bool) (w : World) :
    List Ev → List Out
  | [] => []
  | e :: rest =>
    (step fsHasNodeModules w e).2 ++
      runOutputs fsHasNodeModules (step fsHasNodeModules w e).1 rest

/-- The frame carried by one outbound transmission. -/
def outMsg : Out → Msg
  | .send _ m => m
  | .broadcastOut m => m

/-- Is this transmission a broadcast (sent to every client) rather than a
reply to the issuing connection? -/
def outIsBroadcast : Out → Bool
  | .send _ _ => false
  | .broadcastOut _ => true

/-- The `command` field when the transmission is a `start` frame, else
`none`; a `start` frame is the observable record that the server issued a
command to a shell. -/
def outStartCommand (o : Out) : Option String :=
  match outMsg o with
  | Msg.startMsg _ _ c _ => some c
  | _ => none

/-- Is this event an inbound frame that parsed (i.e. a client command)?
All other events are asynchronous process callbacks or rejected frames. -/
def isCmdFrame : Ev → Bool
  | .goodFrame _ _ => true
  | _ => false

/-- An event that is neither an unparsable frame nor a frame with an
unrecognized action. -/
def wellFormedEv : Ev → Bool
  | .goodFrame _ c => recognizedAction c.action
  | .badFrame _ _ => false
  | _ => true

/-- Filesystem oracle: every project has its `node_modules` directory. -/
def fsPresent : String → Bool := fun _ => true

/-- Filesystem oracle: no project has a `node_modules` directory. -/
def fsAbsent : String → Bool := fun _ => false

/-- The registry keys are pairwise distinct (the map-shape invariant). -/
def keysNodup (w : World) : Prop :=
  (w.registry.map Prod.fst).Nodup

instance (w : World) : Decidable (keysNodup w) := by
  unfold keysNodup; infer_instance

/-! Helper lemmas about the association-list embedding of the JS `Map`. -/

theorem mapHas_false_find_none (m : List (String × ProcEntry)) (k : String)
    (h : mapHas m k = false) : m.find? (fun p => p.1 == k) = none := by
  rw [List.find?_eq_none]
  intro x hx
  simp only [mapHas, List.any_eq_false] at h
  exact h x hx

theorem mapDelete_mapHas_self (m : List (String × ProcEntry)) (k : String) :
    mapHas (mapDelete m k) k = false := by
  simp only [mapHas, mapDelete, List.any_eq_false]
  intro x hx
  rcases List.mem_filter.mp hx with ⟨_, hk⟩
  simpa using hk

theorem mapSet_keysNodup (m : List (String × ProcEntry)) (k : String)
    (v : ProcEntry) (h : (m.map Prod.fst).Nodup) :
    ((mapSet m k v).map Prod.fst).Nodup := by
  unfold mapSet
  by_cases hh : m.any (fun p => p.1 == k) = true
  · rw [if_pos hh, List.map_map]
    have heq : (Prod.fst ∘ fun p : String × ProcEntry =>
        if p.1 == k then (k, v) else p) = Prod.fst := by
      funext p
      by_cases hp : (p.1 == k) = true
      · simp only [Function.comp_apply, if_pos hp]
        exact (eq_of_beq hp).symm
      · simp only [Function.comp_apply, if_neg hp]
    rw [heq]; exact h
  · rw [if_neg hh, List.map_append]
    have hh' : ∀ p ∈ m, ¬ (p.1 == k) = true := by
      intro p hp
      have : m.any (fun q => q.1 == k) = false := by
        exact Bool.eq_false_iff.mpr hh
      exact (List.any_eq_false.mp this) p hp
    have hk : ∀ a ∈ m.map Prod.fst, ¬ a ∈ [k] := by
      intro a ha hak
      rcases List.mem_map.mp ha with ⟨p, hp, hfst⟩
      rcases List.mem_singleton.mp hak with rfl
      exact hh' p hp (by simp [hfst])
    exact List.Nodup.append h (List.nodup_singleton k) hk

theorem mapDelete_keysNodup (m : List (String × ProcEntry)) (k : String)
    (h : (m.map Prod.fst).Nodup) :
    ((mapDelete m k).map Prod.fst).Nodup :=
  List.Nodup.sublist ((List.filter_sublist m).map Prod.fst) h

theorem statusList_mapDelete_excludes (m : List (String × ProcEntry))
    (k : String) :
    ((statusList (mapDelete m k)).all (fun i => ¬ i.id == k)) = true := by
  simp only [statusList, mapDelete, List.all_eq_true]
  intro i hi
  rcases List.mem_map.mp hi with ⟨p, hp, rfl⟩
  rcases List.mem_filter.mp hp with ⟨_, hk⟩
  simpa using hk

/-- C10: the self-recursion of `runProject` on a missing dependency
directory always terminates with at most one recursive call, because the
substituted command `"npm install"` passes the `includes('install')` test
guarding the recursion; hence any fuel bound of at least 2 computes the
same result as the bound of 2 fixed in `runProject`, and `runProject`
terminates for every input command. -/
theorem runProject_recursion_depth_at_most_one (n : Nat)
    (fs : String → Bool) (w : World) (caller : Nat)
    (projectPath projectName command : String) :
    includesInstall "npm install" = true ∧
    runProjectFuel (n + 2) fs w caller projectPath projectName command =
      runProject fs w caller projectPath projectName command := by
  refine ⟨by decide, ?_⟩
  show _ = runProjectFuel 2 fs w caller projectPath projectName command
  have hni : includesInstall "npm install" = true := by decide
  by_cases h1 : mapHas w.registry projectPath
  · simp [runProjectFuel, h1]
  · by_cases h2 : fs projectPath = true
    · simp [runProjectFuel, h1, h2]
    · by_cases h3 : includesInstall command = true
      · simp [runProjectFuel, h1, h2, h3]
      · have h2' : fs projectPath = false := Bool.eq_false_iff.mpr h2
        have h3' : includesInstall command = false := Bool.eq_false_iff.mpr h3
        simp [runProjectFuel, h1, h2', h3', hni]

/-- C7: `stop` on a `projectPath` with no live entry sends exactly one
NotFound-style error frame to the caller, performs no state change and
produces no status broadcast. -/
theorem stop_without_entry_not_found (w : World) (caller : Nat) (p : String)
    (h : mapHas w.registry p = false) :
    stopProject w caller p =
      (w, [Out.send caller (Msg.errorMsg (some p)
        "Process not found or already stopped")]) ∧
    (∀ o ∈ (stopProject w caller p).2, outIsBroadcast o = false) := by
  have hf := mapHas_false_find_none w.registry p h
  constructor
  · unfold stopProject
    rw [hf]
  · intro o ho
    unfold stopProject at ho
    rw [hf] at ho
    rcases List.mem_singleton.mp ho with rfl
    rfl

theorem stop_without_entry_not_found_witness :
    mapHas initialWorld.registry "/p" = false ∧
    (stopProject initialWorld 7 "/p" =
      (initialWorld, [Out.send 7 (Msg.errorMsg (some "/p")
        "Process not found or already stopped")]) ∧
    (∀ o ∈ (stopProject initialWorld 7 "/p").2, outIsBroadcast o = false)) :=
  ⟨by decide, stop_without_entry_not_found initialWorld 7 "/p" (by decide)⟩

/-- C5: invoking start for a `projectPath` that already has a live entry
(i.e. a second start without an intervening exit or stop) produces exactly
one AlreadyRunning error frame to the caller, leaves the registry
unchanged — still exactly one live entry for that path — and broadcasts
nothing. -/
theorem second_start_already_running (fs : String → Bool) (w : World)
    (caller : Nat) (p pn cmd : String)
    (h : mapHas w.registry p = true) (hnd : keysNodup w) :
    runProject fs w caller p pn cmd =
      (w, [Out.send caller (Msg.errorMsg (some p)
        (pn ++ " is already running! Stop it first."))]) ∧
    w.registry.countP (fun e => e.1 == p) = 1 ∧
    (∀ o ∈ (runProject fs w caller p pn cmd).2, outIsBroadcast o = false) := by
  have hrun : runProject fs w caller p pn cmd =
      (w, [Out.send caller (Msg.errorMsg (some p)
        (pn ++ " is already running! Stop it first."))]) := by
    unfold runProject runProjectFuel
    rw [if_pos h]
  refine ⟨hrun, ?_, ?_⟩
  · have hmem : p ∈ w.registry.map Prod.fst := by
      simp only [mapHas, List.any_eq_true] at h
      rcases h with ⟨e, he, hk⟩
      exact List.mem_map.mpr ⟨e, he, eq_of_beq hk⟩
    have hcount : (w.registry.map Prod.fst).count p = 1 :=
      List.count_eq_one_of_mem hnd hmem
    calc w.registry.countP (fun e => e.1 == p)
        = (w.registry.map Prod.fst).countP (fun a => a == p) := by
          rw [List.countP_map]; rfl
      _ = 1 := hcount
  · intro o ho
    rw [hrun] at ho
    rcases List.mem_singleton.mp ho with rfl
    rfl

theorem second_start_already_running_witness :
    mapHas (runEvents fsPresent initialWorld
      [Ev.goodFrame 0 ⟨"run", "/p", "P", some "npm run dev"⟩]).registry "/p"
        = true ∧
    keysNodup (runEvents fsPresent initialWorld
      [Ev.goodFrame 0 ⟨"run", "/p", "P", some "npm run dev"⟩]) ∧
    (runProject fsPresent (runEvents fsPresent initialWorld
        [Ev.goodFrame 0 ⟨"run", "/p", "P", some "npm run dev"⟩])
        0 "/p" "P" "npm run dev" =
      ((runEvents fsPresent initialWorld
        [Ev.goodFrame 0 ⟨"run", "/p", "P", some "npm run dev"⟩]),
       [Out.send 0 (Msg.errorMsg (some "/p")
        ("P" ++ " is already running! Stop it first."))]) ∧
    (runEvents fsPresent initialWorld
      [Ev.goodFrame 0 ⟨"run", "/p", "P", some "npm run dev"⟩]).registry.countP
        (fun e => e.1 == "/p") = 1 ∧
    (∀ o ∈ (runProject fsPresent (runEvents fsPresent initialWorld
        [Ev.goodFrame 0 ⟨"run", "/p", "P", some "npm run dev"⟩])
        0 "/p" "P" "npm run dev").2, outIsBroadcast o = false)) :=
  ⟨by decide, by decide,
    second_start_already_running fsPresent _ 0 "/p" "P" "npm run dev"
      (by decide) (by decide)⟩

/-- C9: an inbound frame that fails to parse, or that parses but carries an
unrecognized action, produces a single error frame sent only to the
connection that sent it (no broadcast, so no other connection receives
anything), leaves the supervisor state unchanged, and the connection can
issue subsequent commands, which are processed exactly as they would have
been without the offending frame. -/
theorem malformed_frame_scoped_to_sender (fs : String → Bool) (w : World)
    (caller : Nat) (parseErr : String) (c : Command)
    (hc : recognizedAction c.action = false) :
    step fs w (Ev.badFrame caller parseErr) =
      (w, [Out.send caller (Msg.errorMsg none parseErr)]) ∧
    step fs w (Ev.goodFrame caller c) =
      (w, [Out.send caller (Msg.errorMsg none ("Unknown action: " ++ c.action))]) ∧
    (∀ rest, runEvents fs w (Ev.badFrame caller parseErr :: rest) =
      runEvents fs w rest) ∧
    (∀ rest, runEvents fs w (Ev.goodFrame caller c :: rest) =
      runEvents fs w rest) := by
  obtain ⟨⟨⟨⟨⟨hr, hd⟩, hi⟩, hs⟩, ho⟩, hcl⟩ :
      ((((¬ c.action = "run" ∧ ¬ c.action = "deploy") ∧
        ¬ c.action = "install") ∧ ¬ c.action = "stop") ∧
        ¬ c.action = "open") ∧ ¬ c.action = "clean" := by
    simpa [recognizedAction] using hc
  have hgood : step fs w (Ev.goodFrame caller c) =
      (w, [Out.send caller (Msg.errorMsg none ("Unknown action: " ++ c.action))]) := by
    simp [step, handleCommand, hr, hd, hi, hs, ho, hcl]
  refine ⟨rfl, hgood, ?_, ?_⟩
  · intro rest
    simp [runEvents, step]
  · intro rest
    simp only [runEvents, hgood]

theorem malformed_frame_scoped_to_sender_witness :
    recognizedAction "frobnicate" = false ∧
    (step fsPresent initialWorld (Ev.badFrame 3 "Unexpected token") =
      (initialWorld, [Out.send 3 (Msg.errorMsg none "Unexpected token")]) ∧
    step fsPresent initialWorld
        (Ev.goodFrame 3 ⟨"frobnicate", "/p", "P", none⟩) =
      (initialWorld,
        [Out.send 3 (Msg.errorMsg none ("Unknown action: " ++ "frobnicate"))]) ∧
    (∀ rest, runEvents fsPresent initialWorld
        (Ev.badFrame 3 "Unexpected token" :: rest) =
      runEvents fsPresent initialWorld rest) ∧
    (∀ rest, runEvents fsPresent initialWorld
        (Ev.goodFrame 3 ⟨"frobnicate", "/p", "P", none⟩ :: rest) =
      runEvents fsPresent initialWorld rest)) :=
  ⟨by decide, malformed_frame_scoped_to_sender fsPresent initialWorld 3
    "Unexpected token" ⟨"frobnicate", "/p", "P", none⟩ (by decide)⟩

/-- Every frame emitted by `runProject` (any fuel) other than a status
broadcast carries a `projectPath` field. -/
theorem runProjectFuel_frames_carry_path (fuel : Nat) (fs : String → Bool)
    (w : World) (caller : Nat) (p pn cmd : String) :
    ∀ o ∈ (runProjectFuel fuel fs w caller p pn cmd).2,
      msgType (outMsg o) ≠ "status" → (msgProjectPath (outMsg o)).isSome := by
  induction fuel generalizing cmd with
  | zero => simp [runProjectFuel]
  | succ n ih =>
    intro o ho hty
    unfold runProjectFuel at ho
    by_cases h1 : mapHas w.registry p
    · rw [if_pos h1] at ho
      rcases List.mem_singleton.mp ho with rfl
      rfl
    · rw [if_neg h1] at ho
      by_cases h2 : ¬ fs p ∧ ¬ includesInstall cmd
      · rw [if_pos h2] at ho
        simp only [List.mem_cons] at ho
        rcases ho with rfl | ho
        · rfl
        · exact ih "npm install" o ho hty
      · rw [if_neg h2] at ho
        simp only [List.mem_cons, List.not_mem_nil, or_false] at ho
        rcases ho with rfl | rfl
        · rfl
        · exact absurd rfl hty

/-- Every frame emitted by `stopProject` other than a status broadcast
carries a `projectPath` field. -/
theorem stopProject_frames_carry_path (w : World) (caller : Nat) (p : String) :
    ∀ o ∈ (stopProject w caller p).2, msgType (outMsg o) ≠ "status" →
      (msgProjectPath (outMsg o)).isSome := by
  intro o ho hty
  cases hf : w.registry.find? (fun q => q.1 == p) with
  | none =>
    have hs : stopProject w caller p =
        (w, [Out.send caller (Msg.errorMsg (some p)
          "Process not found or already stopped")]) := by
      unfold stopProject; rw [hf]
    rw [hs] at ho
    rcases List.mem_singleton.mp ho with rfl
    rfl
  | some entry =>
    have hs : stopProject w caller p =
        ({ w with registry := mapDelete w.registry p },
          [Out.send caller (Msg.info p ("Stopping " ++ entry.2.name ++ "...")),
           Out.broadcastOut (Msg.status (statusList (mapDelete w.registry p))),
           Out.send caller (Msg.stopped p (entry.2.name ++ " stopped"))]) := by
      unfold stopProject; rw [hf]
    rw [hs] at ho
    simp only [List.mem_cons, List.not_mem_nil, or_false] at ho
    rcases ho with rfl | rfl | rfl
    · rfl
    · exact absurd rfl hty
    · rfl

/-- Every frame emitted by `cleanProject` carries a `projectPath` field. -/
theorem cleanProject_frames_carry_path (fs : String → Bool) (w : World)
    (caller : Nat) (p pn : String) :
    ∀ o ∈ (cleanProject fs w caller p pn).2,
      (msgProjectPath (outMsg o)).isSome := by
  intro o ho
  unfold cleanProject at ho
  by_cases hfs : fs p = true
  · rw [if_neg (by simp [hfs])] at ho
    rcases List.mem_singleton.mp ho with rfl
    rfl
  · rw [if_pos (by simpa using hfs)] at ho
    rcases List.mem_singleton.mp ho with rfl
    rfl

/-- C8 (amended): every outbound frame produced for a well-formed event —
any event other than an unparsable frame or a frame with an unrecognized
action — carries a `projectPath` field unless it is a `status` broadcast;
the two malformed-command error frames are the only exception. -/
theorem non_status_frames_carry_project_path (fs : String → Bool) (w : World)
    (e : Ev) (he : wellFormedEv e = true) :
    ∀ o ∈ (step fs w e).2, msgType (outMsg o) ≠ "status" →
      (msgProjectPath (outMsg o)).isSome := by
  intro o ho hty
  cases e with
  | badFrame caller msg => simp [wellFormedEv] at he
  | goodFrame caller c =>
    have hact : recognizedAction c.action = true := he
    have hsix : c.action = "run" ∨ c.action = "deploy" ∨
        c.action = "install" ∨ c.action = "stop" ∨ c.action = "open" ∨
        c.action = "clean" := by
      simpa [recognizedAction, or_assoc] using hact
    rcases hsix with h | h | h | h | h | h
    · simp only [step, handleCommand, h] at ho
      norm_num at ho
      simp only [runProject] at ho
      exact runProjectFuel_frames_carry_path 2 fs w caller _ _ _ o ho hty
    · simp only [step, handleCommand, h] at ho
      norm_num at ho
      simp only [runProject] at ho
      exact runProjectFuel_frames_carry_path 2 fs w caller _ _ _ o ho hty
    · simp only [step, handleCommand, h] at ho
      norm_num at ho
      simp only [runProject] at ho
      exact runProjectFuel_frames_carry_path 2 fs w caller _ _ _ o ho hty
    · simp only [step, handleCommand, h] at ho
      norm_num at ho
      exact stopProject_frames_carry_path w caller _ o ho hty
    · simp only [step, handleCommand, h] at ho
      norm_num at ho
      simp only [openFolder] at ho
      rcases List.mem_singleton.mp ho with rfl
      rfl
    · simp only [step, handleCommand, h] at ho
      norm_num at ho
      exact cleanProject_frames_carry_path fs w caller _ _ o ho
  | procData pid onStderr data =>
    cases hf : findChild w pid with
    | none => simp [step, hf] at ho
    | some child =>
      cases hk : child.kind with
      | runChild =>
        have hstep : (step fs w (Ev.procData pid onStderr data)).2 =
            [Out.send child.caller
              (if onStderr then Msg.stderrMsg child.projectPath data
               else Msg.stdoutMsg child.projectPath data)] := by
          simp only [step, hf, hk]; simp
        rw [hstep] at ho
        rcases List.mem_singleton.mp ho with rfl
        cases onStderr <;> rfl
      | cleanChild => simp [step, hf, hk] at ho
  | procError pid errMsg =>
    cases hf : findChild w pid with
    | none => simp [step, hf] at ho
    | some child =>
      cases hk : child.kind with
      | runChild =>
        have hstep : (step fs w (Ev.procError pid errMsg)).2 =
            [Out.send child.caller
              (Msg.errorMsg (some child.projectPath) errMsg),
             Out.broadcastOut (Msg.status (statusList
              (mapDelete w.registry child.projectPath)))] := by
          simp only [step, hf, hk]; simp
        rw [hstep] at ho
        simp only [List.mem_cons, List.not_mem_nil, or_false] at ho
        rcases ho with rfl | rfl
        · rfl
        · exact absurd rfl hty
      | cleanChild => simp [step, hf, hk] at ho
  | procClose pid code =>
    cases hf : findChild w pid with
    | none => simp [step, hf] at ho
    | some child =>
      cases hk : child.kind with
      | runChild =>
        have hstep : (step fs w (Ev.procClose pid code)).2 =
            [Out.send child.caller (Msg.exitMsg child.projectPath code
              (exitMessage code)),
             Out.broadcastOut (Msg.status (statusList
              (mapDelete w.registry child.projectPath)))] := by
          simp only [step, hf, hk]
        rw [hstep] at ho
        simp only [List.mem_cons, List.not_mem_nil, or_false] at ho
        rcases ho with rfl | rfl
        · rfl
        · exact absurd rfl hty
      | cleanChild =>
        have hstep : (step fs w (Ev.procClose pid code)).2 =
            [Out.send child.caller
              (if code = 0 then
                Msg.success child.projectPath
                  ("Cleaned node_modules from " ++ child.projectName)
               else
                Msg.errorMsg (some child.projectPath)
                  ("Failed to clean " ++ child.projectName))] := by
          simp only [step, hf, hk]
        rw [hstep] at ho
        rcases List.mem_singleton.mp ho with rfl
        by_cases hc : code = 0
        · simp only [outMsg, if_pos hc]; rfl
        · simp only [outMsg, if_neg hc]; rfl

theorem non_status_frames_carry_project_path_witness :
    wellFormedEv (Ev.goodFrame 0 ⟨"run", "/p", "P", some "npm run dev"⟩)
        = true ∧
    (∀ o ∈ (step fsPresent initialWorld
        (Ev.goodFrame 0 ⟨"run", "/p", "P", some "npm run dev"⟩)).2,
      msgType (outMsg o) ≠ "status" → (msgProjectPath (outMsg o)).isSome) :=
  ⟨by decide, non_status_frames_carry_project_path fsPresent initialWorld
    (Ev.goodFrame 0 ⟨"run", "/p", "P", some "npm run dev"⟩) (by decide)⟩

/-- C8 is refuted as stated: the error frame for an unrecognized action and
the error frame for an unparsable frame are outbound non-status frames that
carry no `projectPath` field. -/
theorem unknown_action_error_lacks_project_path :
    (step fsPresent initialWorld
      (Ev.goodFrame 0 ⟨"wat", "/p", "P", none⟩)).2 =
      [Out.send 0 (Msg.errorMsg none "Unknown action: wat")] ∧
    (step fsPresent initialWorld
      (Ev.badFrame 0 "Unexpected token < in JSON at position 0")).2 =
      [Out.send 0 (Msg.errorMsg none
        "Unexpected token < in JSON at position 0")] ∧
    msgType (Msg.errorMsg none "Unknown action: wat") ≠ "status" ∧
    msgProjectPath (Msg.errorMsg none "Unknown action: wat") = none ∧
    msgProjectPath (Msg.errorMsg none
      "Unexpected token < in JSON at position 0") = none := by
  refine ⟨by decide, by decide, by decide, by decide, by decide⟩

/-- C3 (amended): when the spawn of a started process fails (the
asynchronous `error` callback fires), an error frame is emitted to the
caller, the live entry is removed, and a status broadcast without the path
follows; the entry itself, however, was created unconditionally when spawn
returned a handle, so it transiently exists between the spawn and the
failure report. -/
theorem spawn_failure_reported_and_entry_removed (fs : String → Bool)
    (w : World) (pid : Nat) (errMsg : String) (child : Child)
    (hfind : findChild w pid = some child)
    (hkind : child.kind = ChildKind.runChild) :
    step fs w (Ev.procError pid errMsg) =
      ({ w with registry := mapDelete w.registry child.projectPath },
        [Out.send child.caller (Msg.errorMsg (some child.projectPath) errMsg),
         Out.broadcastOut (Msg.status (statusList
           (mapDelete w.registry child.projectPath)))]) ∧
    mapHas (step fs w (Ev.procError pid errMsg)).1.registry
      child.projectPath = false := by
  have hstep : step fs w (Ev.procError pid errMsg) =
      ({ w with registry := mapDelete w.registry child.projectPath },
        [Out.send child.caller (Msg.errorMsg (some child.projectPath) errMsg),
         Out.broadcastOut (Msg.status (statusList
           (mapDelete w.registry child.projectPath)))]) := by
    simp only [step, hfind, hkind]
    simp
  refine ⟨hstep, ?_⟩
  rw [hstep]
  exact mapDelete_mapHas_self _ _

theorem spawn_failure_reported_and_entry_removed_witness :
    findChild (runEvents fsPresent initialWorld
        [Ev.goodFrame 0 ⟨"run", "/p", "P", some "missing-binary"⟩]) 1 =
      some ⟨1, ChildKind.runChild, "/p", "P", "missing-binary", 0⟩ ∧
    (⟨1, ChildKind.runChild, "/p", "P", "missing-binary", 0⟩ : Child).kind
        = ChildKind.runChild ∧
    (step fsPresent (runEvents fsPresent initialWorld
        [Ev.goodFrame 0 ⟨"run", "/p", "P", some "missing-binary"⟩])
        (Ev.procError 1 "spawn missing-binary ENOENT") =
      ({ (runEvents fsPresent initialWorld
          [Ev.goodFrame 0 ⟨"run", "/p", "P", some "missing-binary"⟩]) with
         registry := mapDelete (runEvents fsPresent initialWorld
          [Ev.goodFrame 0 ⟨"run", "/p", "P", some "missing-binary"⟩]).registry
          "/p" },
        [Out.send 0 (Msg.errorMsg (some "/p") "spawn missing-binary ENOENT"),
         Out.broadcastOut (Msg.status (statusList
           (mapDelete (runEvents fsPresent initialWorld
            [Ev.goodFrame 0 ⟨"run", "/p", "P", some "missing-binary"⟩]).registry
            "/p")))]) ∧
    mapHas (step fsPresent (runEvents fsPresent initialWorld
        [Ev.goodFrame 0 ⟨"run", "/p", "P", some "missing-binary"⟩])
        (Ev.procError 1 "spawn missing-binary ENOENT")).1.registry "/p"
      = false) :=
  ⟨by decide, by decide,
    spawn_failure_reported_and_entry_removed fsPresent
      (runEvents fsPresent initialWorld
        [Ev.goodFrame 0 ⟨"run", "/p", "P", some "missing-binary"⟩]) 1
      "spawn missing-binary ENOENT"
      ⟨1, ChildKind.runChild, "/p", "P", "missing-binary", 0⟩
      (by decide) (by decide)⟩

/-- C3 is refuted as stated: for a spawn that fails, the registry does
contain an entry for the failed spawn between the exclusivity check and the
failure report — the entry is inserted and broadcast as soon as spawn
returns a handle, and only removed when the asynchronous failure arrives. -/
theorem spawn_failure_transient_entry_counterexample :
    mapHas (runEvents fsPresent initialWorld
      [Ev.goodFrame 0 ⟨"run", "/p", "P", some "missing-binary"⟩]).registry
      "/p" = true ∧
    (runOutputs fsPresent initialWorld
      [Ev.goodFrame 0 ⟨"run", "/p", "P", some "missing-binary"⟩]).contains
        (Out.broadcastOut (Msg.status [⟨"/p", "P", "/p", 1⟩])) = true ∧
    runOutputs fsPresent (runEvents fsPresent initialWorld
        [Ev.goodFrame 0 ⟨"run", "/p", "P", some "missing-binary"⟩])
        [Ev.procError 1 "spawn missing-binary ENOENT"] =
      [Out.send 0 (Msg.errorMsg (some "/p") "spawn missing-binary ENOENT"),
       Out.broadcastOut (Msg.status [])] ∧
    mapHas (runEvents fsPresent initialWorld
      [Ev.goodFrame 0 ⟨"run", "/p", "P", some "missing-binary"⟩,
       Ev.procError 1 "spawn missing-binary ENOENT"]).registry "/p"
      = false := by
  refine ⟨by decide, by decide, by decide, by decide⟩

/-- Registry-key uniqueness is preserved by any fuel of `runProject`. -/
theorem runProjectFuel_keysNodup (fuel : Nat) (fs : String → Bool)
    (w : World) (caller : Nat) (p pn : String) (h : keysNodup w) :
    ∀ cmd, keysNodup (runProjectFuel fuel fs w caller p pn cmd).1 := by
  induction fuel with
  | zero => intro cmd; simpa [runProjectFuel] using h
  | succ n ih =>
    intro cmd
    unfold runProjectFuel
    by_cases h1 : mapHas w.registry p
    · rw [if_pos h1]; exact h
    · rw [if_neg h1]
      by_cases h2 : ¬ fs p ∧ ¬ includesInstall cmd
      · rw [if_pos h2]
        exact ih "npm install"
      · rw [if_neg h2]
        exact mapSet_keysNodup _ _ _ h

/-- Registry-key uniqueness is preserved by `stopProject`. -/
theorem stopProject_keysNodup (w : World) (caller : Nat) (p : String)
    (h : keysNodup w) : keysNodup (stopProject w caller p).1 := by
  cases hf : w.registry.find? (fun q => q.1 == p) with
  | none =>
    have hs : (stopProject w caller p).1 = w := by
      unfold stopProject; rw [hf]
    rw [hs]; exact h
  | some entry =>
    have hs : (stopProject w caller p).1 =
        { w with registry := mapDelete w.registry p } := by
      unfold stopProject; rw [hf]
    rw [hs]
    exact mapDelete_keysNodup _ _ h

/-- Registry-key uniqueness is preserved by `cleanProject` (the registry is
untouched). -/
theorem cleanProject_keysNodup (fs : String → Bool) (w : World)
    (caller : Nat) (p pn : String) (h : keysNodup w) :
    keysNodup (cleanProject fs w caller p pn).1 := by
  unfold cleanProject
  by_cases hfs : fs p = true
  · rw [if_neg (by simp [hfs])]; exact h
  · rw [if_pos (by simpa using hfs)]; exact h

/-- Registry-key uniqueness is preserved by every control-thread step. -/
theorem step_keysNodup (fs : String → Bool) (w : World) (e : Ev)
    (h : keysNodup w) : keysNodup (step fs w e).1 := by
  cases e with
  | badFrame caller msg => exact h
  | goodFrame caller c =>
    simp only [step, handleCommand]
    by_cases h1 : (c.action == "run") = true
    · rw [if_pos h1]
      exact runProjectFuel_keysNodup 2 fs w caller _ _ h _
    · rw [if_neg h1]
      by_cases h2 : (c.action == "deploy") = true
      · rw [if_pos h2]
        exact runProjectFuel_keysNodup 2 fs w caller _ _ h _
      · rw [if_neg h2]
        by_cases h3 : (c.action == "install") = true
        · rw [if_pos h3]
          exact runProjectFuel_keysNodup 2 fs w caller _ _ h _
        · rw [if_neg h3]
          by_cases h4 : (c.action == "stop") = true
          · rw [if_pos h4]
            exact stopProject_keysNodup w caller _ h
          · rw [if_neg h4]
            by_cases h5 : (c.action == "open") = true
            · rw [if_pos h5]; exact h
            · rw [if_neg h5]
              by_cases h6 : (c.action == "clean") = true
              · rw [if_pos h6]
                exact cleanProject_keysNodup fs w caller _ _ h
              · rw [if_neg h6]; exact h
  | procData pid onStderr data =>
    have hs : (step fs w (Ev.procData pid onStderr data)).1 = w := by
      cases hf : findChild w pid with
      | none => simp [step, hf]
      | some child =>
        cases hk : child.kind with
        | runChild => simp [step, hf, hk]
        | cleanChild => simp [step, hf, hk]
    rw [hs]; exact h
  | procError pid errMsg =>
    cases hf : findChild w pid with
    | none =>
      have hs : (step fs w (Ev.procError pid errMsg)).1 = w := by
        simp [step, hf]
      rw [hs]; exact h
    | some child =>
      cases hk : child.kind with
      | runChild =>
        have hs : (step fs w (Ev.procError pid errMsg)).1 =
            { w with registry := mapDelete w.registry child.projectPath } := by
          simp only [step, hf, hk]; simp
        rw [hs]
        exact mapDelete_keysNodup _ _ h
      | cleanChild =>
        have hs : (step fs w (Ev.procError pid errMsg)).1 = w := by
          simp [step, hf, hk]
        rw [hs]; exact h
  | procClose pid code =>
    cases hf : findChild w pid with
    | none =>
      have hs : (step fs w (Ev.procClose pid code)).1 = w := by
        simp [step, hf]
      rw [hs]; exact h
    | some child =>
      cases hk : child.kind with
      | runChild =>
        have hs : (step fs w (Ev.procClose pid code)).1 =
            removeChild
              { w with registry := mapDelete w.registry child.projectPath }
              pid := by
          simp only [step, hf, hk]
        rw [hs]
        show ((mapDelete w.registry child.projectPath).map Prod.fst).Nodup
        exact mapDelete_keysNodup _ _ h
      | cleanChild =>
        have hs : (step fs w (Ev.procClose pid code)).1 = removeChild w pid := by
          simp only [step, hf, hk]
        rw [hs]
        exact h

/-- Registry-key uniqueness is preserved along any event sequence. -/
theorem runEvents_keysNodup (fs : String → Bool) (evs : List Ev) (w : World)
    (h : keysNodup w) : keysNodup (runEvents fs w evs) := by
  induction evs generalizing w with
  | nil => exact h
  | cons e rest ih => exact ih _ (step_keysNodup fs w e h)

/-- C1: for every `projectPath`, the live-process registry holds at most one
entry at any point of any sequence of commands and process events starting
from the initial state: the entry is inserted only by the spawn in start
(guarded by the exclusivity check), and deleted by process exit, explicit
stop, or spawn error, so the keys stay pairwise distinct. -/
theorem registry_at_most_one_entry_per_path (fs : String → Bool)
    (evs : List Ev) (p : String) :
    (runEvents fs initialWorld evs).registry.countP (fun e => e.1 == p) ≤ 1 := by
  have hnd : keysNodup (runEvents fs initialWorld evs) :=
    runEvents_keysNodup fs evs initialWorld (by simp [keysNodup, initialWorld])
  have hc : (runEvents fs initialWorld evs).registry.countP
      (fun e => e.1 == p)
      = ((runEvents fs initialWorld evs).registry.map Prod.fst).count p := by
    rw [List.count, List.countP_map]
    rfl
  rw [hc]
  exact List.nodup_iff_count_le_one.mp hnd p

/-- C4: when any running process terminates with any exit code, the step
emits exactly an `exit` frame carrying that code to the initiating
connection followed by a status broadcast, the live entry for the path is
removed, the broadcast list excludes that path, and no error frame is
emitted (a non-zero exit is not an error condition and the server keeps
running). -/
theorem process_exit_removes_entry (fs : String → Bool) (w : World)
    (pid : Nat) (code : Int) (child : Child)
    (hfind : findChild w pid = some child)
    (hkind : child.kind = ChildKind.runChild) :
    (step fs w (Ev.procClose pid code)).2 =
      [Out.send child.caller (Msg.exitMsg child.projectPath code
        (exitMessage code)),
       Out.broadcastOut (Msg.status (statusList
        (mapDelete w.registry child.projectPath)))] ∧
    (step fs w (Ev.procClose pid code)).1.registry =
      mapDelete w.registry child.projectPath ∧
    ((statusList (mapDelete w.registry child.projectPath)).all
      (fun i => ¬ i.id == child.projectPath)) = true ∧
    ((step fs w (Ev.procClose pid code)).2.all
      (fun o => ¬ msgType (outMsg o) == "error")) = true := by
  have hstep : step fs w (Ev.procClose pid code) =
      (removeChild
        { w with registry := mapDelete w.registry child.projectPath } pid,
        [Out.send child.caller (Msg.exitMsg child.projectPath code
          (exitMessage code)),
         Out.broadcastOut (Msg.status (statusList
          (mapDelete w.registry child.projectPath)))]) := by
    simp only [step, hfind, hkind]
  refine ⟨?_, ?_, statusList_mapDelete_excludes _ _, ?_⟩
  · rw [hstep]
  · rw [hstep]; rfl
  · rw [hstep]
    simp [outMsg, msgType]

theorem process_exit_removes_entry_witness :
    findChild (runEvents fsPresent initialWorld
        [Ev.goodFrame 0 ⟨"run", "/p", "P", some "npm run dev"⟩]) 1 =
      some ⟨1, ChildKind.runChild, "/p", "P", "npm run dev", 0⟩ ∧
    (⟨1, ChildKind.runChild, "/p", "P", "npm run dev", 0⟩ : Child).kind
        = ChildKind.runChild ∧
    ((step fsPresent (runEvents fsPresent initialWorld
        [Ev.goodFrame 0 ⟨"run", "/p", "P", some "npm run dev"⟩])
        (Ev.procClose 1 3)).2 =
      [Out.send 0 (Msg.exitMsg "/p" 3 (exitMessage 3)),
       Out.broadcastOut (Msg.status (statusList
        (mapDelete (runEvents fsPresent initialWorld
          [Ev.goodFrame 0 ⟨"run", "/p", "P", some "npm run dev"⟩]).registry
          "/p")))] ∧
    (step fsPresent (runEvents fsPresent initialWorld
        [Ev.goodFrame 0 ⟨"run", "/p", "P", some "npm run dev"⟩])
        (Ev.procClose 1 3)).1.registry =
      mapDelete (runEvents fsPresent initialWorld
        [Ev.goodFrame 0 ⟨"run", "/p", "P", some "npm run dev"⟩]).registry
        "/p" ∧
    ((statusList (mapDelete (runEvents fsPresent initialWorld
        [Ev.goodFrame 0 ⟨"run", "/p", "P", some "npm run dev"⟩]).registry
        "/p")).all (fun i => ¬ i.id == "/p")) = true ∧
    ((step fsPresent (runEvents fsPresent initialWorld
        [Ev.goodFrame 0 ⟨"run", "/p", "P", some "npm run dev"⟩])
        (Ev.procClose 1 3)).2.all
      (fun o => ¬ msgType (outMsg o) == "error")) = true) :=
  ⟨by decide, by decide,
    process_exit_removes_entry fsPresent
      (runEvents fsPresent initialWorld
        [Ev.goodFrame 0 ⟨"run", "/p", "P", some "npm run dev"⟩]) 1 3
      ⟨1, ChildKind.runChild, "/p", "P", "npm run dev", 0⟩
      (by decide) (by decide)⟩

/-- A step on any event that is not a parsed inbound command never emits a
`start` frame: the process callbacks only stream output, report errors and
exits, and finish cleanups. -/
theorem step_no_start_without_frame (fs : String → Bool) (w : World)
    (e : Ev) (he : isCmdFrame e = false) :
    ∀ o ∈ (step fs w e).2, outStartCommand o = none := by
  intro o ho
  cases e with
  | goodFrame caller c => simp [isCmdFrame] at he
  | badFrame caller msg =>
    rcases List.mem_singleton.mp ho with rfl
    rfl
  | procData pid onStderr data =>
    cases hf : findChild w pid with
    | none => simp [step, hf] at ho
    | some child =>
      cases hk : child.kind with
      | runChild =>
        have hstep : (step fs w (Ev.procData pid onStderr data)).2 =
            [Out.send child.caller
              (if onStderr then Msg.stderrMsg child.projectPath data
               else Msg.stdoutMsg child.projectPath data)] := by
          simp only [step, hf, hk]; simp
        rw [hstep] at ho
        rcases List.mem_singleton.mp ho with rfl
        cases onStderr <;> rfl
      | cleanChild => simp [step, hf, hk] at ho
  | procError pid errMsg =>
    cases hf : findChild w pid with
    | none => simp [step, hf] at ho
    | some child =>
      cases hk : child.kind with
      | runChild =>
        have hstep : (step fs w (Ev.procError pid errMsg)).2 =
            [Out.send child.caller
              (Msg.errorMsg (some child.projectPath) errMsg),
             Out.broadcastOut (Msg.status (statusList
              (mapDelete w.registry child.projectPath)))] := by
          simp only [step, hf, hk]; simp
        rw [hstep] at ho
        simp only [List.mem_cons, List.not_mem_nil, or_false] at ho
        rcases ho with rfl | rfl <;> rfl
      | cleanChild => simp [step, hf, hk] at ho
  | procClose pid code =>
    cases hf : findChild w pid with
    | none => simp [step, hf] at ho
    | some child =>
      cases hk : child.kind with
      | runChild =>
        have hstep : (step fs w (Ev.procClose pid code)).2 =
            [Out.send child.caller (Msg.exitMsg child.projectPath code
              (exitMessage code)),
             Out.broadcastOut (Msg.status (statusList
              (mapDelete w.registry child.projectPath)))] := by
          simp only [step, hf, hk]
        rw [hstep] at ho
        simp only [List.mem_cons, List.not_mem_nil, or_false] at ho
        rcases ho with rfl | rfl <;> rfl
      | cleanChild =>
        have hstep : (step fs w (Ev.procClose pid code)).2 =
            [Out.send child.caller
              (if code = 0 then
                Msg.success child.projectPath
                  ("Cleaned node_modules from " ++ child.projectName)
               else
                Msg.errorMsg (some child.projectPath)
                  ("Failed to clean " ++ child.projectName))] := by
          simp only [step, hf, hk]
        rw [hstep] at ho
        rcases List.mem_singleton.mp ho with rfl
        by_cases hc : code = 0
        · simp only [outStartCommand, outMsg, if_pos hc]
        · simp only [outStartCommand, outMsg, if_neg hc]

/-- Over any sequence of events containing no parsed inbound command, the
server never emits a `start` frame. -/
theorem runOutputs_no_start_without_frames (fs : String → Bool) (w : World)
    (evs : List Ev) (h : evs.all (fun e => ¬ isCmdFrame e) = true) :
    ∀ o ∈ runOutputs fs w evs, outStartCommand o = none := by
  induction evs generalizing w with
  | nil => simp [runOutputs]
  | cons e rest ih =>
    intro o ho
    rw [List.all_cons, Bool.and_eq_true] at h
    simp only [runOutputs, List.mem_append] at ho
    rcases ho with ho | ho
    · exact step_no_start_without_frame fs w e (by simpa using h.1) o ho
    · exact ih _ h.2 o ho

/-- Searching an appended list when the left part has no match. -/
theorem find?_append_left_none {α : Type} (p : α → Bool) (l₁ l₂ : List α)
    (h : l₁.find? p = none) : (l₁ ++ l₂).find? p = l₂.find? p := by
  induction l₁ with
  | nil => rfl
  | cons a l ih =>
    rw [List.cons_append]
    cases hpa : p a with
    | true => simp [List.find?, hpa] at h
    | false =>
      simp only [List.find?, hpa] at h ⊢
      exact ih h

/-- C6: `clean` on a project whose dependency directory is absent emits only
one info frame and spawns nothing; `clean` on a project whose directory
exists emits the cleaning info frame and spawns the removal child, and when
that child's removal process closes the server emits `success` exactly when
the exit code is 0 and `error` otherwise, leaving the registry untouched.
The freshness hypothesis states that the OS gave the removal child a pid not
already used by a live child. -/
theorem clean_project_spec (fs : String → Bool) (w : World) (caller : Nat)
    (p pn : String) (hfresh : ∀ c ∈ w.children, c.pid ≠ w.nextPid) :
    (fs p = false →
      cleanProject fs w caller p pn =
        (w, [Out.send caller
          (Msg.info p (pn ++ " has no node_modules to clean"))])) ∧
    (fs p = true →
      (cleanProject fs w caller p pn).2 =
        [Out.send caller
          (Msg.info p ("Cleaning node_modules from " ++ pn ++ "..."))] ∧
      ∀ code : Int,
        (step fs (cleanProject fs w caller p pn).1
            (Ev.procClose w.nextPid code)).2 =
          [Out.send caller
            (if code = 0 then
              Msg.success p ("Cleaned node_modules from " ++ pn)
             else Msg.errorMsg (some p) ("Failed to clean " ++ pn))] ∧
        (step fs (cleanProject fs w caller p pn).1
            (Ev.procClose w.nextPid code)).1.registry = w.registry) := by
  constructor
  · intro hfs
    unfold cleanProject
    rw [if_pos (by simp [hfs])]
  · intro hfs
    have hclean : cleanProject fs w caller p pn =
        (World.mk w.registry
          (w.children ++ [Child.mk w.nextPid ChildKind.cleanChild p pn
            "rm -rf node_modules" caller])
          (w.nextPid + 1),
          [Out.send caller
            (Msg.info p ("Cleaning node_modules from " ++ pn ++ "..."))]) := by
      unfold cleanProject
      rw [if_neg (by simp [hfs])]
    refine ⟨by rw [hclean], ?_⟩
    intro code
    have hfindnone : w.children.find? (fun c => c.pid == w.nextPid) = none := by
      rw [List.find?_eq_none]
      intro c hc
      simpa using hfresh c hc
    have hfind : findChild (cleanProject fs w caller p pn).1 w.nextPid =
        some (Child.mk w.nextPid ChildKind.cleanChild p pn
          "rm -rf node_modules" caller) := by
      unfold findChild
      simp only [hclean]
      rw [find?_append_left_none _ _ _ hfindnone]
      simp [List.find?]
    have hstep : step fs (cleanProject fs w caller p pn).1
        (Ev.procClose w.nextPid code) =
        (removeChild (cleanProject fs w caller p pn).1 w.nextPid,
          [Out.send caller
            (if code = 0 then
              Msg.success p ("Cleaned node_modules from " ++ pn)
             else Msg.errorMsg (some p) ("Failed to clean " ++ pn))]) := by
      simp only [step, hfind]
    refine ⟨by rw [hstep], ?_⟩
    rw [hstep, hclean]
    rfl

theorem clean_project_spec_witness :
    (∀ c ∈ initialWorld.children, c.pid ≠ initialWorld.nextPid) ∧
    ((fsPresent "/p" = false →
      cleanProject fsPresent initialWorld 0 "/p" "P" =
        (initialWorld, [Out.send 0
          (Msg.info "/p" ("P" ++ " has no node_modules to clean"))])) ∧
    (fsPresent "/p" = true →
      (cleanProject fsPresent initialWorld 0 "/p" "P").2 =
        [Out.send 0
          (Msg.info "/p" ("Cleaning node_modules from " ++ "P" ++ "..."))] ∧
      ∀ code : Int,
        (step fsPresent (cleanProject fsPresent initialWorld 0 "/p" "P").1
            (Ev.procClose initialWorld.nextPid code)).2 =
          [Out.send 0
            (if code = 0 then
              Msg.success "/p" ("Cleaned node_modules from " ++ "P")
             else Msg.errorMsg (some "/p") ("Failed to clean " ++ "P"))] ∧
        (step fsPresent (cleanProject fsPresent initialWorld 0 "/p" "P").1
            (Ev.procClose initialWorld.nextPid code)).1.registry =
          initialWorld.registry)) :=
  ⟨by simp [initialWorld],
    clean_project_spec fsPresent initialWorld 0 "/p" "P"
      (by simp [initialWorld])⟩

/-- C2: whenever start is invoked for a path with no live entry, whose
dependency directory is absent and whose command is not itself an install
command, the invocation emits the warning frame and then recursively starts
the substituted `npm install`: the resulting state and frames are exactly
those of spawning `npm install` (warning, `start` frame for `npm install`,
status broadcast, install run child); the originally requested command is
never issued, neither by that invocation nor by any subsequent process
events; and after the install process exits with any code the path's entry
is gone — back to idle, never having entered running for the original
command.  The freshness hypothesis states the OS gave the install child a
pid not already used by a live child. -/
theorem missing_deps_installs_and_discards_original (fs : String → Bool)
    (w : World) (caller : Nat) (p pn cmd : String)
    (hnotrun : mapHas w.registry p = false)
    (hfs : fs p = false)
    (hni : includesInstall cmd = false)
    (hfresh : ∀ c ∈ w.children, c.pid ≠ w.nextPid) :
    runProject fs w caller p pn cmd =
      (World.mk (mapSet w.registry p (ProcEntry.mk pn p w.nextPid))
        (w.children ++ [Child.mk w.nextPid ChildKind.runChild p pn
          "npm install" caller])
        (w.nextPid + 1),
       [Out.send caller (Msg.warning p
          "node_modules not found. Installing dependencies first..."),
        Out.send caller (Msg.startMsg p pn "npm install"
          ("Starting " ++ pn ++ "...")),
        Out.broadcastOut (Msg.status (statusList
          (mapSet w.registry p (ProcEntry.mk pn p w.nextPid))))]) ∧
    (∀ rest, rest.all (fun e => ¬ isCmdFrame e) = true →
      ∀ o ∈ (runProject fs w caller p pn cmd).2 ++
          runOutputs fs (runProject fs w caller p pn cmd).1 rest,
        outStartCommand o ≠ some cmd) ∧
    (∀ code : Int,
      mapHas (step fs (runProject fs w caller p pn cmd).1
        (Ev.procClose w.nextPid code)).1.registry p = false) := by
  have hinst : includesInstall "npm install" = true := by decide
  have hne : cmd ≠ "npm install" := by
    intro heq
    rw [heq, hinst] at hni
    simp at hni
  have hrun : runProject fs w caller p pn cmd =
      (World.mk (mapSet w.registry p (ProcEntry.mk pn p w.nextPid))
        (w.children ++ [Child.mk w.nextPid ChildKind.runChild p pn
          "npm install" caller])
        (w.nextPid + 1),
       [Out.send caller (Msg.warning p
          "node_modules not found. Installing dependencies first..."),
        Out.send caller (Msg.startMsg p pn "npm install"
          ("Starting " ++ pn ++ "...")),
        Out.broadcastOut (Msg.status (statusList
          (mapSet w.registry p (ProcEntry.mk pn p w.nextPid))))]) := by
    simp [runProject, runProjectFuel, hnotrun, hfs, hni, hinst]
  refine ⟨hrun, ?_, ?_⟩
  · intro rest hrest o ho
    rcases List.mem_append.mp ho with ho | ho
    · simp only [hrun, List.mem_cons, List.not_mem_nil, or_false] at ho
      rcases ho with rfl | rfl | rfl
      · intro hcon
        simp [outStartCommand, outMsg] at hcon
      · intro hcon
        simp only [outStartCommand, outMsg, Option.some.injEq] at hcon
        exact hne hcon.symm
      · intro hcon
        simp [outStartCommand, outMsg] at hcon
    · have hnone := runOutputs_no_start_without_frames fs
        (runProject fs w caller p pn cmd).1 rest hrest o ho
      rw [hnone]
      simp
  · intro code
    have hfindnone : w.children.find? (fun c => c.pid == w.nextPid) = none := by
      rw [List.find?_eq_none]
      intro c hc
      simpa using hfresh c hc
    have hfind : findChild (runProject fs w caller p pn cmd).1 w.nextPid =
        some (Child.mk w.nextPid ChildKind.runChild p pn
          "npm install" caller) := by
      unfold findChild
      simp only [hrun]
      rw [find?_append_left_none _ _ _ hfindnone]
      simp [List.find?]
    have hreg : (step fs (runProject fs w caller p pn cmd).1
        (Ev.procClose w.nextPid code)).1.registry =
        mapDelete (runProject fs w caller p pn cmd).1.registry p := by
      simp only [step, hfind, removeChild]
    rw [hreg, hrun]
    exact mapDelete_mapHas_self _ _

theorem missing_deps_installs_and_discards_original_witness :
    mapHas initialWorld.registry "/p" = false ∧
    fsAbsent "/p" = false ∧
    includesInstall "echo hi" = false ∧
    (∀ c ∈ initialWorld.children, c.pid ≠ initialWorld.nextPid) ∧
    (runProject fsAbsent initialWorld 0 "/p" "P" "echo hi" =
      (World.mk (mapSet initialWorld.registry "/p"
          (ProcEntry.mk "P" "/p" initialWorld.nextPid))
        (initialWorld.children ++ [Child.mk initialWorld.nextPid
          ChildKind.runChild "/p" "P" "npm install" 0])
        (initialWorld.nextPid + 1),
       [Out.send 0 (Msg.warning "/p"
          "node_modules not found. Installing dependencies first..."),
        Out.send 0 (Msg.startMsg "/p" "P" "npm install"
          ("Starting " ++ "P" ++ "...")),
        Out.broadcastOut (Msg.status (statusList
          (mapSet initialWorld.registry "/p"
            (ProcEntry.mk "P" "/p" initialWorld.nextPid))))]) ∧
    (∀ rest, rest.all (fun e => ¬ isCmdFrame e) = true →
      ∀ o ∈ (runProject fsAbsent initialWorld 0 "/p" "P" "echo hi").2 ++
          runOutputs fsAbsent
            (runProject fsAbsent initialWorld 0 "/p" "P" "echo hi").1 rest,
        outStartCommand o ≠ some "echo hi") ∧
    (∀ code : Int,
      mapHas (step fsAbsent
        (runProject fsAbsent initialWorld 0 "/p" "P" "echo hi").1
        (Ev.procClose initialWorld.nextPid code)).1.registry "/p" = false)) :=
  ⟨by decide, by decide, by decide, by simp [initialWorld],
    missing_deps_installs_and_discards_original fsAbsent initialWorld 0
      "/p" "P" "echo hi" (by decide) (by decide) (by decide)
      (by simp [initialWorld])⟩
